import Mathlib

set_option maxRecDepth 4000

/-
Shallow embedding of src/export_gibraltar_tariff.py.

Strings are modelled as List Char; Python str methods (strip, lstrip,
isdigit, startswith, in, splitlines) are modelled on ASCII text, which is
what the scraped tariff pages contain.  The regex
CODE_PATTERN = \b[0-9*]{10}-[0-9*]{2}-[0-9*]{2}\b
is modelled by an explicit character-class scanner with Python's
word-boundary semantics (a word char is [A-Za-z0-9_]; a boundary holds
where exactly one of the two adjacent positions holds a word char).
-/

namespace GibTariff

/-- Python characters '0'..'9', the [0-9] class and str.isdigit on ASCII. -/
def isPyDigit (c : Char) : Bool := decide ('0' ≤ c ∧ c ≤ '9')

/-- Regex word character \w restricted to ASCII: [A-Za-z0-9_]. -/
def isWordChar (c : Char) : Bool :=
  decide (('a' ≤ c ∧ c ≤ 'z') ∨ ('A' ≤ c ∧ c ≤ 'Z') ∨ ('0' ≤ c ∧ c ≤ '9') ∨ c = '_')

/-- ASCII whitespace stripped by Python str.strip(). -/
def isSpaceChar (c : Char) : Bool :=
  c == ' ' || c == '\t' || c == '\n' || c == '\r' || c == '\x0b' || c == '\x0c'

/-- Character class [0-9*] of CODE_PATTERN. -/
def isCodeChar (c : Char) : Bool := isPyDigit c || c == '*'

/-- The separator set of desc.lstrip(" -–—:") at line 113 of the source. -/
def isSepChar (c : Char) : Bool :=
  c == ' ' || c == '-' || c == '–' || c == '—' || c == ':'

/-- Python str.strip(): drop whitespace from both ends. -/
def strip (s : List Char) : List Char :=
  ((s.dropWhile isSpaceChar).reverse.dropWhile isSpaceChar).reverse

/-- Python str.lstrip(" -–—:"). -/
def lstripSep (s : List Char) : List Char := s.dropWhile isSepChar

/-- Shape of the fixed-width body of CODE_PATTERN:
ten [0-9*] chars, a hyphen, two [0-9*] chars, a hyphen, two [0-9*] chars. -/
def codeShape : List Char → Bool
  | [a, b, c, d, e, f, g, h, i, j, x, k, l, y, m, n] =>
    isCodeChar a && isCodeChar b && isCodeChar c && isCodeChar d && isCodeChar e &&
    isCodeChar f && isCodeChar g && isCodeChar h && isCodeChar i && isCodeChar j &&
    x == '-' && isCodeChar k && isCodeChar l && y == '-' && isCodeChar m && isCodeChar n
  | _ => false

/-- Whether position i of s holds a regex word character (out of range: no). -/
def wordAtIdx (s : List Char) (i : Nat) : Bool :=
  match s.get? i with
  | some c => isWordChar c
  | none => false

/-- Regex \b at position p of s. -/
def boundaryAt (s : List Char) (p : Nat) : Bool :=
  (if p = 0 then false else wordAtIdx s (p - 1)) != wordAtIdx s p

/-- CODE_PATTERN has a match starting at position p of s. -/
def matchesAt (s : List Char) (p : Nat) : Bool :=
  codeShape (List.take 16 (List.drop p s)) && boundaryAt s p && boundaryAt s (p + 16)

/-- CODE_PATTERN.match(s): a match anchored at the start of s. -/
def reMatch (s : List Char) : Bool := matchesAt s 0

/-- Scanner behind CODE_PATTERN.finditer: leftmost non-overlapping matches.
After a match at p the scan resumes at p + 16 (the match length). -/
def finditerAux (s : List Char) (p : Nat) : Nat → List Nat
  | 0 => []
  | fuel + 1 =>
    if s.length ≤ p then []
    else if matchesAt s p then p :: finditerAux s (p + 16) fuel
    else finditerAux s (p + 1) fuel

/-- Start positions of all CODE_PATTERN matches in s, left to right. -/
def finditer (s : List Char) : List Nat := finditerAux s 0 (s.length + 1)

/-- Python str.isdigit(): nonempty and all digits. -/
def isdigitStr (s : List Char) : Bool := !s.isEmpty && s.all isPyDigit

/-- Line 72 of the source: chapter title and boilerplate header lines. -/
def isSkipLine (line : List Char) : Bool :=
  List.isPrefixOf ("CHAPTER ".toList) line || line == "Chapter".toList ||
  line == "Heading".toList || line == "Article Description".toList

/-- Line 77: a 4-char all-digit line that CODE_PATTERN.match does not match. -/
def headingShape (line : List Char) : Bool :=
  (line.length == 4) && isdigitStr line && !(reMatch line)

/-- Lines 93 to 94: a 5-char all-digit line extending the current heading,
not matched by CODE_PATTERN.match. -/
def subheadingShape (h line : List Char) : Bool :=
  (line.length == 5) && isdigitStr line && List.isPrefixOf h line && !(reMatch line)

/-- Lines 86 and 101: the lookahead test for a heading or subheading
description line (nonempty, not all digits, not a code match). -/
def descLineOk (n : List Char) : Bool := !n.isEmpty && !(isdigitStr n) && !(reMatch n)

/-- Line 117: the lookahead test for a code description line. -/
def codeDescLineOk (n : List Char) : Bool := !n.isEmpty && !(reMatch n)

/-- Helper of splitlines, accumulating the current line in reverse. -/
def splitlinesAux : List Char → List Char → List (List Char)
  | [], acc => [acc.reverse]
  | c :: rest, acc =>
    if c = '\n' then
      if rest.isEmpty then [acc.reverse] else acc.reverse :: splitlinesAux rest []
    else splitlinesAux rest (c :: acc)

/-- Python str.splitlines() for newline-separated text (the fetcher joins
block elements with a single newline, so only the '\n' terminator occurs). -/
def splitlines (s : List Char) : List (List Char) :=
  if s.isEmpty then [] else splitlinesAux s []

/-- Python f-string formatting f-chapter-02d: decimal, zero-padded to two. -/
def chapterStr (c : Nat) : List Char :=
  let d := Nat.toDigits 10 c
  List.replicate (2 - d.length) '0' ++ d

/-- One output row of extract_hierarchy_from_text (lines 126 to 134).
The dedup key at lines 120 to 121 is the full 7-tuple of fields, so a key
is the same thing as a record value. -/
structure Record where
  chapter : List Char
  heading : List Char
  heading_description : List Char
  subheading : List Char
  subheading_description : List Char
  code : List Char
  description : List Char
deriving DecidableEq

/-- The mutable loop variables of extract_hierarchy_from_text
(current_heading, current_heading_desc, current_subheading,
current_subheading_desc) plus the seen set of emitted keys. -/
structure ExtractState where
  heading : List Char
  headingDesc : List Char
  subheading : List Char
  subheadingDesc : List Char
  seen : List Record
deriving DecidableEq

/-- Initial state of the extraction loop (lines 53 to 61). -/
def initState : ExtractState := ⟨[], [], [], [], []⟩

/-- Lines 112 to 118: the description of a code match ending at position
mEnd of line, with fallback to the (raw) next line when the remainder of
the current line is empty after stripping separators. -/
def descForMatch (line : List Char) (mEnd : Nat) (next? : Option (List Char)) : List Char :=
  let d := lstripSep (strip (List.drop mEnd line))
  if d.isEmpty then
    match next? with
    | some nl => if codeDescLineOk (strip nl) then strip nl else []
    | none => []
  else d

/-- Lines 108 to 134: emit one record per code match position, skipping
keys already in seen; returns the emitted records and the updated seen. -/
def emitCodes (ch hd hdd sh shd line : List Char) (next? : Option (List Char)) :
    List Nat → List Record → List Record × List Record
  | [], seen => ([], seen)
  | p :: ps, seen =>
    let code := List.take 16 (List.drop p line)
    let r : Record := ⟨ch, hd, hdd, sh, shd, code, descForMatch line (p + 16) next?⟩
    if r ∈ seen then emitCodes ch hd hdd sh shd line next? ps seen
    else
      let q := emitCodes ch hd hdd sh shd line next? ps (r :: seen)
      (r :: q.1, q.2)

/-- The while loop of extract_hierarchy_from_text (lines 63 to 136).
Cursor position i is the head of the remaining line list.  The i plus two
advance of the heading and subheading branches (absorbing the lookahead
line as a description) is encoded by the skip flag: when skip is true the
head line was already absorbed by the previous iteration and is dropped
without processing.  The code branch at lines 107 to 136 never sets the
flag: it advances one line only. -/
def extractLoop (ch : List Char) : Bool → ExtractState → List (List Char) → List Record
  | _, _, [] => []
  | true, st, _ :: rest => extractLoop ch false st rest
  | false, st, l :: rest =>
    if (strip l).isEmpty then extractLoop ch false st rest
    else if isSkipLine (strip l) then extractLoop ch false st rest
    else if headingShape (strip l) then
      match rest.head? with
      | some nl =>
        if descLineOk (strip nl) then
          extractLoop ch true ⟨strip l, strip nl, [], [], st.seen⟩ rest
        else
          extractLoop ch false ⟨strip l, [], [], [], st.seen⟩ rest
      | none => extractLoop ch false ⟨strip l, [], [], [], st.seen⟩ rest
    else if subheadingShape st.heading (strip l) then
      match rest.head? with
      | some nl =>
        if descLineOk (strip nl) then
          extractLoop ch true ⟨st.heading, st.headingDesc, strip l, strip nl, st.seen⟩ rest
        else
          extractLoop ch false ⟨st.heading, st.headingDesc, strip l, [], st.seen⟩ rest
      | none => extractLoop ch false ⟨st.heading, st.headingDesc, strip l, [], st.seen⟩ rest
    else
      (emitCodes ch st.heading st.headingDesc st.subheading st.subheadingDesc
        (strip l) rest.head? (finditer (strip l)) st.seen).1 ++
      extractLoop ch false { st with seen :=
        (emitCodes ch st.heading st.headingDesc st.subheading st.subheadingDesc
          (strip l) rest.head? (finditer (strip l)) st.seen).2 } rest

/-- extract_hierarchy_from_text (lines 47 to 138). -/
def extract_hierarchy_from_text (text : List Char) (chapter : Nat) : List Record :=
  extractLoop (chapterStr chapter) false initState (splitlines text)

/-- Python substring containment: needle in hay. -/
def containsSub (needle : List Char) : List Char → Bool
  | [] => needle.isEmpty
  | c :: rest => List.isPrefixOf needle (c :: rest) || containsSub needle rest

/-- The line scan of extract_chapter_name (lines 40 to 44). -/
def chapterNameLoop (chS : List Char) : List (List Char) → List Char
  | [] => []
  | l :: rest =>
    if List.isPrefixOf ("CHAPTER ".toList) (strip l) ∧ containsSub chS (strip l) = true then
      strip (strip l)
    else chapterNameLoop chS rest

/-- extract_chapter_name (lines 37 to 44). -/
def extract_chapter_name (text : List Char) (chapter : Nat) : List Char :=
  chapterNameLoop (chapterStr chapter) (splitlines text)

/-- The global dedup loop of main (lines 188 to 197), threading final_seen. -/
def dedupeAux (seen : List Record) : List Record → List Record
  | [] => []
  | r :: rest => if r ∈ seen then dedupeAux seen rest else r :: dedupeAux (r :: seen) rest

/-- Global deduplication pass over the accumulated records (lines 188 to 197). -/
def dedupeRecords (rs : List Record) : List Record := dedupeAux [] rs

/-- The two failure classes of fetch_chapter_text caught in main
(requests.HTTPError and requests.RequestException). -/
inductive FetchErr where
  | httpError
  | requestError
deriving DecidableEq

/-- One row of the chapters table (lines 175 to 178). -/
structure ChapterRow where
  chapter : List Char
  chapter_title : List Char
deriving DecidableEq

/-- The chapter loop of main (lines 162 to 185): the network is modelled
as an oracle giving each chapter either its fetched text or an error; an
erroring chapter is skipped and contributes nothing. -/
def chapterLoop (fetch : Nat → Except FetchErr (List Char)) :
    List Nat → List Record × List ChapterRow
  | [] => ([], [])
  | c :: cs =>
    match fetch c with
    | Except.error _ => chapterLoop fetch cs
    | Except.ok text =>
      (extract_hierarchy_from_text text c ++ (chapterLoop fetch cs).1,
       ⟨chapterStr c, extract_chapter_name text c⟩ :: (chapterLoop fetch cs).2)

/-- range(1, 100) at line 162: chapters 01 to 99. -/
def allChapters : List Nat := List.range' 1 99

/-- all_records accumulated over the chapter loop (line 183). -/
def collectedRecords (fetch : Nat → Except FetchErr (List Char)) : List Record :=
  (chapterLoop fetch allChapters).1

/-- chapter_records accumulated over the chapter loop (line 175). -/
def chapterRows (fetch : Nat → Except FetchErr (List Char)) : List ChapterRow :=
  (chapterLoop fetch allChapters).2

/-- deduped_records written to the hierarchy CSV (lines 188 to 197). -/
def mainRecords (fetch : Nat → Except FetchErr (List Char)) : List Record :=
  dedupeRecords (collectedRecords fetch)

/-- Nesting property of claims C4 and C10: a record's subheading is empty
or a 5-digit numeric string extended from the record's heading. -/
def RecordNestingOk (r : Record) : Prop :=
  r.subheading = [] ∨
    (r.subheading.length = 5 ∧ r.subheading.all isPyDigit = true ∧
      List.isPrefixOf r.heading r.subheading = true)

/-- Same nesting property on the loop state. -/
def StateNestingOk (st : ExtractState) : Prop :=
  st.subheading = [] ∨
    (st.subheading.length = 5 ∧ st.subheading.all isPyDigit = true ∧
      List.isPrefixOf st.heading st.subheading = true)

/-- Context-changing line of claim C6: under current heading h, the raw
line would be classified as a heading line or as a subheading line. -/
def contextLine (h line : List Char) : Bool :=
  headingShape (strip line) || subheadingShape h (strip line)

end GibTariff

namespace GibTariff

/-! Helper lemmas about characters and the Boolean classifiers. -/

theorem isPyDigit_ne_of_false {c d : Char} (hc : isPyDigit c = true)
    (hd : isPyDigit d = false) : c ≠ d := by
  intro h
  rw [h, hd] at hc
  cases hc

theorem beq_false_dn {c d : Char} (hc : isPyDigit c = true) (hd : isPyDigit d = false) :
    (d == c) = false :=
  beq_false_of_ne (isPyDigit_ne_of_false hc hd).symm

theorem beq_false_nd {c d : Char} (hc : isPyDigit c = true) (hd : isPyDigit d = false) :
    (c == d) = false :=
  beq_false_of_ne (isPyDigit_ne_of_false hc hd)

theorem isWordChar_of_digit {c : Char} (hc : isPyDigit c = true) : isWordChar c = true := by
  rw [isPyDigit, decide_eq_true_eq] at hc
  rw [isWordChar, decide_eq_true_eq]
  exact Or.inr (Or.inr (Or.inl hc))

theorem isSpaceChar_of_digit {c : Char} (hc : isPyDigit c = true) : isSpaceChar c = false := by
  rw [isSpaceChar]
  rw [beq_false_nd hc (by decide), beq_false_nd hc (by decide), beq_false_nd hc (by decide),
    beq_false_nd hc (by decide), beq_false_nd hc (by decide), beq_false_nd hc (by decide)]
  rfl

theorem ne_nl_of_codeChar {c : Char} (h : isCodeChar c = true) : c ≠ '\n' := by
  intro hEq
  subst hEq
  cases h

/-! Helper lemmas about splitlines. -/

theorem splitlinesAux_no_nl {s : List Char} (acc : List Char)
    (h : ∀ c ∈ s, c ≠ '\n') : splitlinesAux s acc = [acc.reverse ++ s] := by
  induction s generalizing acc with
  | nil => simp [splitlinesAux]
  | cons c rest ih =>
    rw [splitlinesAux, if_neg (h c (by simp))]
    rw [ih (c :: acc) (fun x hx => h x (by simp [hx]))]
    simp

theorem splitlines_no_nl {s : List Char} (hne : s ≠ [])
    (h : ∀ c ∈ s, c ≠ '\n') : splitlines s = [s] := by
  rw [splitlines, if_neg (by simpa using hne)]
  simpa using splitlinesAux_no_nl [] h

/-! Helper lemmas about the global dedup pass of main. -/

theorem mem_dedupeAux {seen rs : List Record} {r : Record} :
    r ∈ dedupeAux seen rs ↔ r ∈ rs ∧ r ∉ seen := by
  induction rs generalizing seen with
  | nil => simp [dedupeAux]
  | cons a rest ih =>
    rw [dedupeAux]
    by_cases ha : a ∈ seen
    · rw [if_pos ha, ih]
      constructor
      · exact fun ⟨h1, h2⟩ => ⟨by simp [h1], h2⟩
      · rintro ⟨h1, h2⟩
        rcases List.mem_cons.mp h1 with rfl | h1
        · exact absurd ha h2
        · exact ⟨h1, h2⟩
    · rw [if_neg ha]
      constructor
      · intro hmem
        rcases List.mem_cons.mp hmem with rfl | hmem
        · exact ⟨by simp, ha⟩
        · obtain ⟨h1, h2⟩ := ih.mp hmem
          refine ⟨by simp [h1], fun hc => h2 (by simp [hc])⟩
      · rintro ⟨h1, h2⟩
        rcases List.mem_cons.mp h1 with rfl | h1
        · simp
        · by_cases hra : r = a
          · simp [hra]
          · exact List.mem_cons_of_mem _ (ih.mpr ⟨h1, by simp [hra, h2]⟩)

theorem dedupeAux_sublist (seen rs : List Record) : (dedupeAux seen rs).Sublist rs := by
  induction rs generalizing seen with
  | nil => simp [dedupeAux]
  | cons a rest ih =>
    rw [dedupeAux]
    by_cases ha : a ∈ seen
    · rw [if_pos ha]
      exact (ih seen).trans (List.sublist_cons_self a rest)
    · rw [if_neg ha]
      exact List.Sublist.cons₂ a (ih (a :: seen))

theorem dedupeAux_nodup (seen rs : List Record) : (dedupeAux seen rs).Nodup := by
  induction rs generalizing seen with
  | nil => simp [dedupeAux]
  | cons a rest ih =>
    rw [dedupeAux]
    by_cases ha : a ∈ seen
    · rw [if_pos ha]; exact ih seen
    · rw [if_neg ha]
      refine List.nodup_cons.mpr ⟨fun hmem => ?_, ih (a :: seen)⟩
      exact (mem_dedupeAux.mp hmem).2 (by simp)

theorem dedupeAux_eq_self {seen rs : List Record} (h1 : rs.Nodup)
    (h2 : ∀ r ∈ rs, r ∉ seen) : dedupeAux seen rs = rs := by
  induction rs generalizing seen with
  | nil => simp [dedupeAux]
  | cons a rest ih =>
    rw [dedupeAux, if_neg (h2 a (by simp))]
    rw [ih (List.nodup_cons.mp h1).2]
    intro r hr
    simp only [List.mem_cons, not_or]
    exact ⟨fun hc => (List.nodup_cons.mp h1).1 (hc ▸ hr), h2 r (by simp [hr])⟩

theorem emitCodes_mem {ch hd hdd sh shd line : List Char} {next? : Option (List Char)}
    {ps : List Nat} {seen : List Record} {r : Record}
    (h : r ∈ (emitCodes ch hd hdd sh shd line next? ps seen).1) :
    r.chapter = ch ∧ r.heading = hd ∧ r.heading_description = hdd ∧
      r.subheading = sh ∧ r.subheading_description = shd ∧
      ∃ p ∈ ps, r.code = List.take 16 (List.drop p line) ∧
        r.description = descForMatch line (p + 16) next? := by
  induction ps generalizing seen with
  | nil => simp [emitCodes] at h
  | cons p ps ih =>
    rw [emitCodes] at h
    by_cases hmem :
        (⟨ch, hd, hdd, sh, shd, List.take 16 (List.drop p line),
          descForMatch line (p + 16) next?⟩ : Record) ∈ seen
    · rw [if_pos hmem] at h
      obtain ⟨h1, h2, h3, h4, h5, p', hp', h6⟩ := ih h
      exact ⟨h1, h2, h3, h4, h5, p', by simp [hp'], h6⟩
    · rw [if_neg hmem] at h
      rcases List.mem_cons.mp h with rfl | h
      · exact ⟨rfl, rfl, rfl, rfl, rfl, p, by simp, rfl, rfl⟩
      · obtain ⟨h1, h2, h3, h4, h5, p', hp', h6⟩ := ih h
        exact ⟨h1, h2, h3, h4, h5, p', by simp [hp'], h6⟩

theorem extractLoop_chapter {ch : List Char} {skip : Bool} {st : ExtractState}
    {lines : List (List Char)} {r : Record}
    (h : r ∈ extractLoop ch skip st lines) : r.chapter = ch := by
  induction lines generalizing skip st with
  | nil => simp [extractLoop] at h
  | cons l rest ih =>
    cases skip with
    | true =>
      rw [extractLoop] at h
      exact ih h
    | false =>
      rw [extractLoop] at h
      split at h
      · exact ih h
      · split at h
        · exact ih h
        · split at h
          · split at h
            · split at h
              · exact ih h
              · exact ih h
            · exact ih h
          · split at h
            · split at h
              · split at h
                · exact ih h
                · exact ih h
              · exact ih h
            · rcases List.mem_append.mp h with hq | hq
              · exact (emitCodes_mem hq).1
              · exact ih hq

theorem subheadingShape_parts {h line : List Char} (hs : subheadingShape h line = true) :
    line.length = 5 ∧ line.all isPyDigit = true ∧ List.isPrefixOf h line = true := by
  rw [subheadingShape] at hs
  simp only [Bool.and_eq_true, beq_iff_eq, isdigitStr] at hs
  exact ⟨hs.1.1.1, hs.1.1.2.2, hs.1.2⟩

theorem extractLoop_nesting {ch : List Char} {skip : Bool} {st : ExtractState}
    {lines : List (List Char)} {r : Record} (hst : StateNestingOk st)
    (h : r ∈ extractLoop ch skip st lines) : RecordNestingOk r := by
  induction lines generalizing skip st with
  | nil => simp [extractLoop] at h
  | cons l rest ih =>
    cases skip with
    | true =>
      rw [extractLoop] at h
      exact ih hst h
    | false =>
      rw [extractLoop] at h
      split at h
      · exact ih hst h
      · split at h
        · exact ih hst h
        · split at h
          · split at h
            · split at h
              · exact ih (Or.inl rfl) h
              · exact ih (Or.inl rfl) h
            · exact ih (Or.inl rfl) h
          · split at h
            · rename_i hguard
              obtain ⟨hl5, hldig, hlpre⟩ := subheadingShape_parts hguard
              split at h
              · split at h
                · exact ih (Or.inr ⟨hl5, hldig, hlpre⟩) h
                · exact ih (Or.inr ⟨hl5, hldig, hlpre⟩) h
              · exact ih (Or.inr ⟨hl5, hldig, hlpre⟩) h
            · rcases List.mem_append.mp h with hq | hq
              · obtain ⟨h1, h2, h3, h4, h5, _⟩ := emitCodes_mem hq
                rw [RecordNestingOk, h2, h4]
                exact hst
              · refine ih ?_ hq
                exact hst

theorem extractLoop_no_context {ch : List Char} {L2 : List (List Char)}
    {st : ExtractState} {L1 : List (List Char)}
    (h : ∀ l ∈ L1, contextLine st.heading l = false) :
    ∃ recs seen2,
      extractLoop ch false st (L1 ++ L2) =
        recs ++ extractLoop ch false
          ⟨st.heading, st.headingDesc, st.subheading, st.subheadingDesc, seen2⟩ L2 ∧
      ∀ r ∈ recs, r.chapter = ch ∧ r.heading = st.heading ∧
        r.heading_description = st.headingDesc ∧ r.subheading = st.subheading ∧
        r.subheading_description = st.subheadingDesc := by
  induction L1 generalizing st with
  | nil => exact ⟨[], st.seen, by simp, by simp⟩
  | cons l L1 ih =>
    have hl := h l (by simp)
    have hrest : ∀ x ∈ L1, contextLine st.heading x = false := fun x hx => h x (by simp [hx])
    rw [contextLine, Bool.or_eq_false_iff] at hl
    rw [List.cons_append, extractLoop]
    by_cases he : (strip l).isEmpty = true
    · rw [if_pos he]
      exact ih hrest
    rw [if_neg he]
    by_cases hsk : isSkipLine (strip l) = true
    · rw [if_pos hsk]
      exact ih hrest
    rw [if_neg hsk, if_neg (by simp [hl.1]), if_neg (by simp [hl.2])]
    obtain ⟨recs, seen2, heq, hfields⟩ :=
      @ih ⟨st.heading, st.headingDesc, st.subheading, st.subheadingDesc,
        (emitCodes ch st.heading st.headingDesc st.subheading st.subheadingDesc
          (strip l) (L1 ++ L2).head? (finditer (strip l)) st.seen).2⟩ hrest
    refine ⟨(emitCodes ch st.heading st.headingDesc st.subheading st.subheadingDesc
        (strip l) (L1 ++ L2).head? (finditer (strip l)) st.seen).1 ++ recs, seen2, ?_, ?_⟩
    · rw [List.append_assoc, ← heq]
    · intro r hr
      rcases List.mem_append.mp hr with hq | hq
      · obtain ⟨h1, h2, h3, h4, h5, _⟩ := emitCodes_mem hq
        exact ⟨h1, h2, h3, h4, h5⟩
      · exact hfields r hq

theorem dedupeAux_indexOf_le {seen rs : List Record} {r s : Record}
    (hr : r ∈ dedupeAux seen rs) (hs : s ∈ dedupeAux seen rs) :
    (List.indexOf r (dedupeAux seen rs) ≤ List.indexOf s (dedupeAux seen rs) ↔
      List.indexOf r rs ≤ List.indexOf s rs) := by
  induction rs generalizing seen with
  | nil => simp [dedupeAux] at hr
  | cons a rest ih =>
    rw [dedupeAux] at hr hs ⊢
    by_cases ha : a ∈ seen
    · rw [if_pos ha] at hr hs ⊢
      have hra : r ≠ a := fun hc => ((mem_dedupeAux.mp hr).2 (hc ▸ ha))
      have hsa : s ≠ a := fun hc => ((mem_dedupeAux.mp hs).2 (hc ▸ ha))
      rw [List.indexOf_cons_ne rest hra.symm, List.indexOf_cons_ne rest hsa.symm]
      rw [ih hr hs]
      omega
    · rw [if_neg ha] at hr hs ⊢
      by_cases hra : r = a
      · subst hra
        rw [List.indexOf_cons_self, List.indexOf_cons_self]
        simp
      · have hr' : r ∈ dedupeAux (a :: seen) rest := by
          rcases List.mem_cons.mp hr with hc | hc
          · exact absurd hc hra
          · exact hc
        rw [List.indexOf_cons_ne _ (fun hc => hra hc.symm),
          List.indexOf_cons_ne rest (fun hc => hra hc.symm)]
        by_cases hsa : s = a
        · subst hsa
          rw [List.indexOf_cons_self, List.indexOf_cons_self]
          constructor
          · intro h; omega
          · intro h; omega
        · have hs' : s ∈ dedupeAux (a :: seen) rest := by
            rcases List.mem_cons.mp hs with hc | hc
            · exact absurd hc hsa
            · exact hc
          rw [List.indexOf_cons_ne _ (fun hc => hsa hc.symm),
            List.indexOf_cons_ne rest (fun hc => hsa hc.symm)]
          have := ih hr' hs'
          omega

theorem extractLoop_code_step {ch : List Char} {st : ExtractState} {l : List Char}
    {rest : List (List Char)}
    (hne : (strip l).isEmpty = false) (hsk : isSkipLine (strip l) = false)
    (hhd : headingShape (strip l) = false)
    (hsh : subheadingShape st.heading (strip l) = false) :
    extractLoop ch false st (l :: rest) =
      (emitCodes ch st.heading st.headingDesc st.subheading st.subheadingDesc
        (strip l) rest.head? (finditer (strip l)) st.seen).1 ++
      extractLoop ch false { st with seen :=
        (emitCodes ch st.heading st.headingDesc st.subheading st.subheadingDesc
          (strip l) rest.head? (finditer (strip l)) st.seen).2 } rest := by
  rw [extractLoop, if_neg (by simp [hne]), if_neg (by simp [hsk]),
    if_neg (by simp [hhd]), if_neg (by simp [hsh])]

theorem codeShape_length {l : List Char} (h : codeShape l = true) : l.length = 16 := by
  unfold codeShape at h
  split at h
  · simp
  · cases h

theorem reMatch_false_of_short {s : List Char} (h : s.length < 16) : reMatch s = false := by
  rw [reMatch, matchesAt]
  have hc : codeShape (List.take 16 (List.drop 0 s)) = false := by
    cases hc : codeShape (List.take 16 (List.drop 0 s))
    · rfl
    · have hlen := codeShape_length hc
      rw [List.drop_zero, List.length_take] at hlen
      omega
  rw [hc]
  rfl

theorem chapterStr_inj_lt :
    ∀ a, a < 100 → ∀ b, b < 100 → a ≠ b → chapterStr a ≠ chapterStr b := by
  decide

theorem allChapters_lt : ∀ c ∈ allChapters, c < 100 := by decide

theorem chapterLoop_skip (fetch : Nat → Except FetchErr (List Char)) (c : Nat)
    (e : FetchErr) (h : fetch c = Except.error e) (cs1 cs2 : List Nat) :
    chapterLoop fetch (cs1 ++ c :: cs2) = chapterLoop fetch (cs1 ++ cs2) := by
  induction cs1 with
  | nil =>
    rw [List.nil_append, List.nil_append, chapterLoop, h]
  | cons a cs ih =>
    rw [List.cons_append, List.cons_append, chapterLoop, chapterLoop]
    cases hf : fetch a <;> rw [ih]

theorem chapterLoop_row_mem {fetch : Nat → Except FetchErr (List Char)}
    {cs : List Nat} {row : ChapterRow} (h : row ∈ (chapterLoop fetch cs).2) :
    ∃ c ∈ cs, (∃ t, fetch c = Except.ok t) ∧ row.chapter = chapterStr c := by
  induction cs with
  | nil => simp [chapterLoop] at h
  | cons a cs ih =>
    rw [chapterLoop] at h
    cases hf : fetch a with
    | error e =>
      rw [hf] at h
      obtain ⟨c, hc, ht, hcs⟩ := ih h
      exact ⟨c, by simp [hc], ht, hcs⟩
    | ok t =>
      rw [hf] at h
      rcases List.mem_cons.mp h with rfl | h'
      · exact ⟨a, by simp, ⟨t, hf⟩, rfl⟩
      · obtain ⟨c, hc, ht, hcs⟩ := ih h'
        exact ⟨c, by simp [hc], ht, hcs⟩

theorem chapterLoop_record_mem {fetch : Nat → Except FetchErr (List Char)}
    {cs : List Nat} {r : Record} (h : r ∈ (chapterLoop fetch cs).1) :
    ∃ c ∈ cs, (∃ t, fetch c = Except.ok t) ∧ r.chapter = chapterStr c := by
  induction cs with
  | nil => simp [chapterLoop] at h
  | cons a cs ih =>
    rw [chapterLoop] at h
    cases hf : fetch a with
    | error e =>
      rw [hf] at h
      obtain ⟨c, hc, ht, hcs⟩ := ih h
      exact ⟨c, by simp [hc], ht, hcs⟩
    | ok t =>
      rw [hf] at h
      rcases List.mem_append.mp h with h' | h'
      · exact ⟨a, by simp, ⟨t, hf⟩, extractLoop_chapter h'⟩
      · obtain ⟨c, hc, ht, hcs⟩ := ih h'
        exact ⟨c, by simp [hc], ht, hcs⟩

/-! Claim theorems. -/

/-- C1, as stated, is false: when a code match has an empty remainder and
the description falls back to the next line, the cursor advances only one
line, so the absorbed line is reprocessed.  Concretely, in chapter 1 the
text with lines 0101210000-00-00, 0102, Horses, 0202110000-00-00 X first
emits a record whose description is the absorbed line 0102, and then that
same line 0102 is re-classified as a heading line: the second record
carries heading 0102 and heading description Horses, which the claim says
cannot happen. -/
theorem claim_C1_counterexample :
    extract_hierarchy_from_text ("0101210000-00-00\n0102\nHorses\n0202110000-00-00 X".toList) 1 =
      [⟨"01".toList, [], [], [], [], "0101210000-00-00".toList, "0102".toList⟩,
       ⟨"01".toList, "0102".toList, "Horses".toList, [], [],
        "0202110000-00-00".toList, "X".toList⟩] := by
  decide

/-- C1 amended: on a code line (a nonempty, non-boilerplate line that is
neither a heading nor a subheading line) the loop emits the code records
of the line and continues with the rest of the line list unchanged: the
cursor advances by exactly one line even when the step-4 fallback absorbs
the next line's text as a description, so the absorbed line is reprocessed
by the following iteration (and may be re-classified as a heading,
subheading, or code line). -/
theorem claim_C1 (ch : List Char) (st : ExtractState) (l : List Char)
    (rest : List (List Char))
    (hne : (strip l).isEmpty = false) (hsk : isSkipLine (strip l) = false)
    (hhd : headingShape (strip l) = false)
    (hsh : subheadingShape st.heading (strip l) = false) :
    extractLoop ch false st (l :: rest) =
      (emitCodes ch st.heading st.headingDesc st.subheading st.subheadingDesc
        (strip l) rest.head? (finditer (strip l)) st.seen).1 ++
      extractLoop ch false { st with seen :=
        (emitCodes ch st.heading st.headingDesc st.subheading st.subheadingDesc
          (strip l) rest.head? (finditer (strip l)) st.seen).2 } rest :=
  extractLoop_code_step hne hsk hhd hsh

/-- C1 witness: the amended equation at the counterexample input, where
the code line has an empty remainder and the fallback absorbs the next
line 0102. -/
theorem claim_C1_witness :
    extractLoop ("01".toList) false initState
        ["0101210000-00-00".toList, "0102".toList] =
      (emitCodes ("01".toList) initState.heading initState.headingDesc
        initState.subheading initState.subheadingDesc
        (strip ("0101210000-00-00".toList)) ["0102".toList].head?
        (finditer (strip ("0101210000-00-00".toList))) initState.seen).1 ++
      extractLoop ("01".toList) false { initState with seen :=
        (emitCodes ("01".toList) initState.heading initState.headingDesc
          initState.subheading initState.subheadingDesc
          (strip ("0101210000-00-00".toList)) ["0102".toList].head?
          (finditer (strip ("0101210000-00-00".toList))) initState.seen).2 }
        ["0102".toList] :=
  claim_C1 ("01".toList) initState ("0101210000-00-00".toList) ["0102".toList]
    (by decide) (by decide) (by decide) (by decide)

/-- C2, as stated, is false: the regex wraps the code body in word
boundaries, and the wildcard star is not a word character, so a token
whose first character is a star preceded by a line boundary (or
whitespace) is not matched at all.  On the line consisting exactly of the
token star123456789-01-02 (ten code characters, hyphen, two, hyphen, two,
with the wildcard in the first digit position) the scanner finds no match
and the extractor emits no record. -/
theorem claim_C2_counterexample :
    finditer ("*123456789-01-02".toList) = [] ∧
    extract_hierarchy_from_text ("*123456789-01-02".toList) 1 = [] :=
  ⟨by decide, by decide⟩

/-- C2 amended: for a line consisting exactly of a token of ten
digit-or-wildcard characters, a hyphen, two, a hyphen, and two, the
pattern matches the token and the extractor emits one record whose code
field is the token, for any placement of wildcards in the interior
positions, provided the first and last characters are digits; when the
first or last character is the wildcard and is adjacent to the line
boundary, the word boundary fails and the pattern does not match. -/
theorem claim_C2 (ch : Nat) (c0 c1 c2 c3 c4 c5 c6 c7 c8 c9 k0 k1 m0 m1 : Char)
    (hall : [c0, c1, c2, c3, c4, c5, c6, c7, c8, c9, k0, k1, m0, m1].all isCodeChar = true)
    (hfirst : isPyDigit c0 = true) (hlast : isPyDigit m1 = true) :
    matchesAt [c0, c1, c2, c3, c4, c5, c6, c7, c8, c9, '-', k0, k1, '-', m0, m1] 0 = true ∧
    finditer [c0, c1, c2, c3, c4, c5, c6, c7, c8, c9, '-', k0, k1, '-', m0, m1] = [0] ∧
    extract_hierarchy_from_text
        [c0, c1, c2, c3, c4, c5, c6, c7, c8, c9, '-', k0, k1, '-', m0, m1] ch =
      [⟨chapterStr ch, [], [], [], [],
        [c0, c1, c2, c3, c4, c5, c6, c7, c8, c9, '-', k0, k1, '-', m0, m1], []⟩] ∧
    matchesAt ['*', c1, c2, c3, c4, c5, c6, c7, c8, c9, '-', k0, k1, '-', m0, m1] 0 = false ∧
    matchesAt [c0, c1, c2, c3, c4, c5, c6, c7, c8, c9, '-', k0, k1, '-', m0, '*'] 0 = false := by
  simp only [List.all_cons, List.all_nil, Bool.and_eq_true, Bool.and_true] at hall
  obtain ⟨a0, a1, a2, a3, a4, a5, a6, a7, a8, a9, b0, b1, d0, d1⟩ := hall
  have hsp0 : isSpaceChar c0 = false := isSpaceChar_of_digit hfirst
  have hsp15 : isSpaceChar m1 = false := isSpaceChar_of_digit hlast
  have hshape :
      codeShape [c0, c1, c2, c3, c4, c5, c6, c7, c8, c9, '-', k0, k1, '-', m0, m1] = true := by
    simp only [codeShape]
    simp [a0, a1, a2, a3, a4, a5, a6, a7, a8, a9, b0, b1, d0, d1]
  have hmatch :
      matchesAt [c0, c1, c2, c3, c4, c5, c6, c7, c8, c9, '-', k0, k1, '-', m0, m1] 0 = true := by
    rw [matchesAt, List.drop_zero]
    rw [show List.take 16 [c0, c1, c2, c3, c4, c5, c6, c7, c8, c9, '-', k0, k1, '-', m0, m1] =
      [c0, c1, c2, c3, c4, c5, c6, c7, c8, c9, '-', k0, k1, '-', m0, m1] from rfl]
    rw [hshape]
    have hb0 : boundaryAt [c0, c1, c2, c3, c4, c5, c6, c7, c8, c9, '-', k0, k1, '-', m0, m1] 0
        = true := by
      rw [boundaryAt, if_pos rfl]
      rw [show wordAtIdx [c0, c1, c2, c3, c4, c5, c6, c7, c8, c9, '-', k0, k1, '-', m0, m1] 0
        = isWordChar c0 from rfl]
      rw [isWordChar_of_digit hfirst]
      rfl
    have hb16 : boundaryAt [c0, c1, c2, c3, c4, c5, c6, c7, c8, c9, '-', k0, k1, '-', m0, m1] 16
        = true := by
      rw [boundaryAt, if_neg (by decide)]
      rw [show wordAtIdx [c0, c1, c2, c3, c4, c5, c6, c7, c8, c9, '-', k0, k1, '-', m0, m1]
        (16 - 1) = isWordChar m1 from rfl]
      rw [show wordAtIdx [c0, c1, c2, c3, c4, c5, c6, c7, c8, c9, '-', k0, k1, '-', m0, m1] 16
        = false from rfl]
      rw [isWordChar_of_digit hlast]
      rfl
    rw [hb0, hb16]
    rfl
  have hfind :
      finditer [c0, c1, c2, c3, c4, c5, c6, c7, c8, c9, '-', k0, k1, '-', m0, m1] = [0] := by
    rw [finditer]
    rw [show List.length [c0, c1, c2, c3, c4, c5, c6, c7, c8, c9, '-', k0, k1, '-', m0, m1] + 1
      = 16 + 1 from rfl]
    rw [show finditerAux [c0, c1, c2, c3, c4, c5, c6, c7, c8, c9, '-', k0, k1, '-', m0, m1] 0
        (16 + 1) =
      if List.length [c0, c1, c2, c3, c4, c5, c6, c7, c8, c9, '-', k0, k1, '-', m0, m1] ≤ 0
        then []
      else if matchesAt [c0, c1, c2, c3, c4, c5, c6, c7, c8, c9, '-', k0, k1, '-', m0, m1] 0
        then 0 :: finditerAux [c0, c1, c2, c3, c4, c5, c6, c7, c8, c9, '-', k0, k1, '-', m0, m1]
          16 16
      else finditerAux [c0, c1, c2, c3, c4, c5, c6, c7, c8, c9, '-', k0, k1, '-', m0, m1] 1 16
      from rfl]
    rw [if_neg (by simp), if_pos hmatch]
    rw [show finditerAux [c0, c1, c2, c3, c4, c5, c6, c7, c8, c9, '-', k0, k1, '-', m0, m1]
        16 16 =
      if List.length [c0, c1, c2, c3, c4, c5, c6, c7, c8, c9, '-', k0, k1, '-', m0, m1] ≤ 16
        then []
      else if matchesAt [c0, c1, c2, c3, c4, c5, c6, c7, c8, c9, '-', k0, k1, '-', m0, m1] 16
        then 16 :: finditerAux [c0, c1, c2, c3, c4, c5, c6, c7, c8, c9, '-', k0, k1, '-', m0, m1]
          32 15
      else finditerAux [c0, c1, c2, c3, c4, c5, c6, c7, c8, c9, '-', k0, k1, '-', m0, m1] 17 15
      from rfl]
    rw [if_pos (by simp)]
  have hd1 : List.dropWhile isSpaceChar
      [c0, c1, c2, c3, c4, c5, c6, c7, c8, c9, '-', k0, k1, '-', m0, m1]
      = [c0, c1, c2, c3, c4, c5, c6, c7, c8, c9, '-', k0, k1, '-', m0, m1] := by
    rw [List.dropWhile_cons, hsp0]
    simp
  have hd2 : List.dropWhile isSpaceChar
      (List.reverse [c0, c1, c2, c3, c4, c5, c6, c7, c8, c9, '-', k0, k1, '-', m0, m1])
      = List.reverse [c0, c1, c2, c3, c4, c5, c6, c7, c8, c9, '-', k0, k1, '-', m0, m1] := by
    rw [show List.reverse [c0, c1, c2, c3, c4, c5, c6, c7, c8, c9, '-', k0, k1, '-', m0, m1]
      = [m1, m0, '-', k1, k0, '-', c9, c8, c7, c6, c5, c4, c3, c2, c1, c0] from rfl]
    rw [List.dropWhile_cons, hsp15]
    simp
  have hstrip : strip [c0, c1, c2, c3, c4, c5, c6, c7, c8, c9, '-', k0, k1, '-', m0, m1]
      = [c0, c1, c2, c3, c4, c5, c6, c7, c8, c9, '-', k0, k1, '-', m0, m1] := by
    rw [strip, hd1, hd2, List.reverse_reverse]
  have hsplit : splitlines [c0, c1, c2, c3, c4, c5, c6, c7, c8, c9, '-', k0, k1, '-', m0, m1]
      = [[c0, c1, c2, c3, c4, c5, c6, c7, c8, c9, '-', k0, k1, '-', m0, m1]] := by
    refine splitlines_no_nl (by simp) ?_
    intro c hc
    simp only [List.mem_cons, List.not_mem_nil, or_false] at hc
    rcases hc with rfl | rfl | rfl | rfl | rfl | rfl | rfl | rfl | rfl | rfl | rfl | rfl |
      rfl | rfl | rfl | rfl
    · exact ne_nl_of_codeChar a0
    · exact ne_nl_of_codeChar a1
    · exact ne_nl_of_codeChar a2
    · exact ne_nl_of_codeChar a3
    · exact ne_nl_of_codeChar a4
    · exact ne_nl_of_codeChar a5
    · exact ne_nl_of_codeChar a6
    · exact ne_nl_of_codeChar a7
    · exact ne_nl_of_codeChar a8
    · exact ne_nl_of_codeChar a9
    · decide
    · exact ne_nl_of_codeChar b0
    · exact ne_nl_of_codeChar b1
    · decide
    · exact ne_nl_of_codeChar d0
    · exact ne_nl_of_codeChar d1
  have hne : (strip [c0, c1, c2, c3, c4, c5, c6, c7, c8, c9, '-', k0, k1, '-', m0, m1]).isEmpty
      = false := by
    rw [hstrip]
    rfl
  have hsk : isSkipLine (strip [c0, c1, c2, c3, c4, c5, c6, c7, c8, c9, '-', k0, k1, '-', m0, m1])
      = false := by
    rw [hstrip, isSkipLine]
    have p1 : List.isPrefixOf ("CHAPTER ".toList)
        [c0, c1, c2, c3, c4, c5, c6, c7, c8, c9, '-', k0, k1, '-', m0, m1] = false := by
      rw [show ("CHAPTER ".toList) = 'C' :: "HAPTER ".toList from rfl]
      rw [List.isPrefixOf_cons₂, beq_false_dn hfirst (by decide)]
      rfl
    have p2 : ([c0, c1, c2, c3, c4, c5, c6, c7, c8, c9, '-', k0, k1, '-', m0, m1]
        == "Chapter".toList) = false := by
      refine beq_false_of_ne ?_
      intro hEq
      have hlen := congrArg List.length hEq
      simp at hlen
    have p3 : ([c0, c1, c2, c3, c4, c5, c6, c7, c8, c9, '-', k0, k1, '-', m0, m1]
        == "Heading".toList) = false := by
      refine beq_false_of_ne ?_
      intro hEq
      have hlen := congrArg List.length hEq
      simp at hlen
    have p4 : ([c0, c1, c2, c3, c4, c5, c6, c7, c8, c9, '-', k0, k1, '-', m0, m1]
        == "Article Description".toList) = false := by
      refine beq_false_of_ne ?_
      intro hEq
      have hlen := congrArg List.length hEq
      simp at hlen
    rw [p1, p2, p3, p4]
    rfl
  have hhd : headingShape
      (strip [c0, c1, c2, c3, c4, c5, c6, c7, c8, c9, '-', k0, k1, '-', m0, m1]) = false := by
    rw [hstrip, headingShape]
    rw [show (List.length [c0, c1, c2, c3, c4, c5, c6, c7, c8, c9, '-', k0, k1, '-', m0, m1]
      == 4) = false from rfl]
    rfl
  have hsh : subheadingShape []
      (strip [c0, c1, c2, c3, c4, c5, c6, c7, c8, c9, '-', k0, k1, '-', m0, m1]) = false := by
    rw [hstrip, subheadingShape]
    rw [show (List.length [c0, c1, c2, c3, c4, c5, c6, c7, c8, c9, '-', k0, k1, '-', m0, m1]
      == 5) = false from rfl]
    rfl
  have hext : extract_hierarchy_from_text
      [c0, c1, c2, c3, c4, c5, c6, c7, c8, c9, '-', k0, k1, '-', m0, m1] ch =
      [⟨chapterStr ch, [], [], [], [],
        [c0, c1, c2, c3, c4, c5, c6, c7, c8, c9, '-', k0, k1, '-', m0, m1], []⟩] := by
    rw [extract_hierarchy_from_text, hsplit]
    rw [extractLoop_code_step hne hsk hhd hsh]
    rw [hstrip, hfind]
    rfl
  have hstar0 : matchesAt
      ['*', c1, c2, c3, c4, c5, c6, c7, c8, c9, '-', k0, k1, '-', m0, m1] 0 = false := by
    rw [matchesAt]
    rw [show boundaryAt ['*', c1, c2, c3, c4, c5, c6, c7, c8, c9, '-', k0, k1, '-', m0, m1] 0
      = false from rfl]
    simp
  have hstar15 : matchesAt
      [c0, c1, c2, c3, c4, c5, c6, c7, c8, c9, '-', k0, k1, '-', m0, '*'] 0 = false := by
    rw [matchesAt]
    rw [show boundaryAt [c0, c1, c2, c3, c4, c5, c6, c7, c8, c9, '-', k0, k1, '-', m0, '*'] 16
      = false from rfl]
    simp
  exact ⟨hmatch, hfind, hext, hstar0, hstar15⟩

/-- C2 witness: the token 01 star 345678 star dash 0 star dash star 0,
wildcards in interior positions and digits at both ends, is matched and
extracted as a record in chapter 1. -/
theorem claim_C2_witness :
    matchesAt ("01*345678*-0*-*0".toList) 0 = true ∧
    finditer ("01*345678*-0*-*0".toList) = [0] ∧
    extract_hierarchy_from_text ("01*345678*-0*-*0".toList) 1 =
      [⟨chapterStr 1, [], [], [], [], "01*345678*-0*-*0".toList, []⟩] ∧
    matchesAt ('*' :: "1*345678*-0*-*0".toList) 0 = false ∧
    matchesAt ("01*345678*-0*-*".toList ++ ['*']) 0 = false := by
  have h := claim_C2 1 '0' '1' '*' '3' '4' '5' '6' '7' '8' '*' '0' '*' '*' '0'
    (by decide) (by decide) (by decide)
  exact h

/-- C3: the deduplicated list produced by the global pass of main has no
two records sharing the 7-tuple key (the key is the whole record), it is a
subsequence of its input consisting of exactly the input's records, it
keeps relative order of first occurrences, and main's output is exactly
this pass applied to the accumulated records. -/
theorem claim_C3 (rs : List Record) (fetch : Nat → Except FetchErr (List Char)) :
    (dedupeRecords rs).Nodup ∧
    (dedupeRecords rs).Sublist rs ∧
    (∀ r, r ∈ dedupeRecords rs ↔ r ∈ rs) ∧
    (∀ r s, r ∈ dedupeRecords rs → s ∈ dedupeRecords rs →
      (List.indexOf r (dedupeRecords rs) ≤ List.indexOf s (dedupeRecords rs) ↔
        List.indexOf r rs ≤ List.indexOf s rs)) ∧
    mainRecords fetch = dedupeRecords (collectedRecords fetch) := by
  refine ⟨dedupeAux_nodup [] rs, dedupeAux_sublist [] rs, ?_, ?_, rfl⟩
  · intro r
    rw [dedupeRecords, mem_dedupeAux]
    simp
  · intro r s hr hs
    exact dedupeAux_indexOf_le hr hs

/-- C3 witness: on a list with a duplicated record, the first occurrences
of the two distinct records keep their relative order. -/
theorem claim_C3_witness :
    List.indexOf (⟨"01".toList, [], [], [], [], "0101210000-00-00".toList, "a".toList⟩ : Record)
        (dedupeRecords
          [⟨"01".toList, [], [], [], [], "0101210000-00-00".toList, "a".toList⟩,
           ⟨"01".toList, [], [], [], [], "0101220000-00-00".toList, "b".toList⟩,
           ⟨"01".toList, [], [], [], [], "0101210000-00-00".toList, "a".toList⟩]) ≤
      List.indexOf (⟨"01".toList, [], [], [], [], "0101220000-00-00".toList, "b".toList⟩ : Record)
        (dedupeRecords
          [⟨"01".toList, [], [], [], [], "0101210000-00-00".toList, "a".toList⟩,
           ⟨"01".toList, [], [], [], [], "0101220000-00-00".toList, "b".toList⟩,
           ⟨"01".toList, [], [], [], [], "0101210000-00-00".toList, "a".toList⟩]) ↔
      List.indexOf (⟨"01".toList, [], [], [], [], "0101210000-00-00".toList, "a".toList⟩ : Record)
          [⟨"01".toList, [], [], [], [], "0101210000-00-00".toList, "a".toList⟩,
           ⟨"01".toList, [], [], [], [], "0101220000-00-00".toList, "b".toList⟩,
           ⟨"01".toList, [], [], [], [], "0101210000-00-00".toList, "a".toList⟩] ≤
        List.indexOf (⟨"01".toList, [], [], [], [], "0101220000-00-00".toList, "b".toList⟩ : Record)
          [⟨"01".toList, [], [], [], [], "0101210000-00-00".toList, "a".toList⟩,
           ⟨"01".toList, [], [], [], [], "0101220000-00-00".toList, "b".toList⟩,
           ⟨"01".toList, [], [], [], [], "0101210000-00-00".toList, "a".toList⟩] :=
  (claim_C3
    [⟨"01".toList, [], [], [], [], "0101210000-00-00".toList, "a".toList⟩,
     ⟨"01".toList, [], [], [], [], "0101220000-00-00".toList, "b".toList⟩,
     ⟨"01".toList, [], [], [], [], "0101210000-00-00".toList, "a".toList⟩]
    (fun _ => Except.error FetchErr.httpError)).2.2.2.1 _ _ (by decide) (by decide)

/-- C4: every record emitted by the extractor has a subheading that is
empty or a 5-digit numeric string of which the record's heading (the
heading active at emission time) is a prefix. -/
theorem claim_C4 (text : List Char) (chapter : Nat) (r : Record)
    (h : r ∈ extract_hierarchy_from_text text chapter) :
    r.subheading = [] ∨
      (r.subheading.length = 5 ∧ r.subheading.all isPyDigit = true ∧
        List.isPrefixOf r.heading r.subheading = true) :=
  extractLoop_nesting (Or.inl rfl) h

/-- C4 witness: a record with a nonempty subheading extracted from a
subheading line under heading 0101. -/
theorem claim_C4_witness :
    (⟨"01".toList, "0101".toList, "Horses".toList, "01012".toList, "Asses".toList,
      "0101301000-00-00".toList, "Foo".toList⟩ : Record).subheading = [] ∨
      ((⟨"01".toList, "0101".toList, "Horses".toList, "01012".toList, "Asses".toList,
        "0101301000-00-00".toList, "Foo".toList⟩ : Record).subheading.length = 5 ∧
       (⟨"01".toList, "0101".toList, "Horses".toList, "01012".toList, "Asses".toList,
        "0101301000-00-00".toList, "Foo".toList⟩ : Record).subheading.all isPyDigit = true ∧
       List.isPrefixOf
        (⟨"01".toList, "0101".toList, "Horses".toList, "01012".toList, "Asses".toList,
          "0101301000-00-00".toList, "Foo".toList⟩ : Record).heading
        (⟨"01".toList, "0101".toList, "Horses".toList, "01012".toList, "Asses".toList,
          "0101301000-00-00".toList, "Foo".toList⟩ : Record).subheading = true) :=
  claim_C4 ("0101\nHorses\n01012\nAsses\n0101301000-00-00 Foo".toList) 1 _ (by decide)

/-- C5: a record emitted by the code-scan step carries the description
computed from its match: the remainder of the line after the match,
stripped of whitespace and then of leading separator punctuation; when
that remainder is empty and the next line (trimmed) is nonempty and not a
code match, the description is the next line's full trimmed text.  In
particular the line 0101210000-00-00 Pure-bred breeding animals yields
that code with description Pure-bred breeding animals, and a bare code
line followed by Other horses yields description Other horses. -/
theorem claim_C5 (ch hd hdd sh shd line : List Char) (next? : Option (List Char))
    (ps : List Nat) (seen : List Record) (r : Record)
    (h : r ∈ (emitCodes ch hd hdd sh shd line next? ps seen).1) :
    (∃ p ∈ ps, r.code = List.take 16 (List.drop p line) ∧
      r.description = descForMatch line (p + 16) next? ∧
      (lstripSep (strip (List.drop (p + 16) line)) ≠ [] →
        r.description = lstripSep (strip (List.drop (p + 16) line))) ∧
      (∀ nl, next? = some nl → lstripSep (strip (List.drop (p + 16) line)) = [] →
        strip nl ≠ [] → reMatch (strip nl) = false → r.description = strip nl)) ∧
    extract_hierarchy_from_text ("0101210000-00-00 Pure-bred breeding animals".toList) 1 =
      [⟨"01".toList, [], [], [], [], "0101210000-00-00".toList,
        "Pure-bred breeding animals".toList⟩] ∧
    extract_hierarchy_from_text ("0101210000-00-00\nOther horses".toList) 1 =
      [⟨"01".toList, [], [], [], [], "0101210000-00-00".toList, "Other horses".toList⟩] := by
  refine ⟨?_, by decide, by decide⟩
  obtain ⟨_, _, _, _, _, p, hp, hcode, hdesc⟩ := emitCodes_mem h
  refine ⟨p, hp, hcode, hdesc, ?_, ?_⟩
  · intro hne
    rw [hdesc]
    simp only [descForMatch]
    rw [if_neg (by simpa using hne)]
  · intro nl hnl hemp hnle hnlm
    rw [hdesc, hnl]
    simp only [descForMatch]
    rw [if_pos (by simpa using hemp), if_pos (by simp [codeDescLineOk, hnlm, hnle])]

/-- C5 witness: the first concrete record of the claim, emitted by the
code-scan step on the line 0101210000-00-00 Pure-bred breeding animals. -/
theorem claim_C5_witness :
    (∃ p ∈ [0], (⟨"01".toList, [], [], [], [], "0101210000-00-00".toList,
        "Pure-bred breeding animals".toList⟩ : Record).code =
          List.take 16 (List.drop p ("0101210000-00-00 Pure-bred breeding animals".toList)) ∧
      (⟨"01".toList, [], [], [], [], "0101210000-00-00".toList,
        "Pure-bred breeding animals".toList⟩ : Record).description =
          descForMatch ("0101210000-00-00 Pure-bred breeding animals".toList) (p + 16) none ∧
      (lstripSep (strip (List.drop (p + 16)
          ("0101210000-00-00 Pure-bred breeding animals".toList))) ≠ [] →
        (⟨"01".toList, [], [], [], [], "0101210000-00-00".toList,
          "Pure-bred breeding animals".toList⟩ : Record).description =
          lstripSep (strip (List.drop (p + 16)
            ("0101210000-00-00 Pure-bred breeding animals".toList)))) ∧
      (∀ nl, (none : Option (List Char)) = some nl →
        lstripSep (strip (List.drop (p + 16)
          ("0101210000-00-00 Pure-bred breeding animals".toList))) = [] →
        strip nl ≠ [] → reMatch (strip nl) = false →
        (⟨"01".toList, [], [], [], [], "0101210000-00-00".toList,
          "Pure-bred breeding animals".toList⟩ : Record).description = strip nl)) ∧
    extract_hierarchy_from_text ("0101210000-00-00 Pure-bred breeding animals".toList) 1 =
      [⟨"01".toList, [], [], [], [], "0101210000-00-00".toList,
        "Pure-bred breeding animals".toList⟩] ∧
    extract_hierarchy_from_text ("0101210000-00-00\nOther horses".toList) 1 =
      [⟨"01".toList, [], [], [], [], "0101210000-00-00".toList, "Other horses".toList⟩] :=
  claim_C5 ("01".toList) [] [] [] [] ("0101210000-00-00 Pure-bred breeding animals".toList)
    none [0] [] _ (by decide)

/-- C6: after the heading line 0101 followed by the description line with
the horses text, the loop resets the subheading and both description
fields, consumes the description line (the recursion continues past it),
and every record emitted before the next heading or subheading line
carries heading 0101 and that heading description. -/
theorem claim_C6 (st : ExtractState) (rest rest1 rest2 : List (List Char)) :
    (extractLoop (chapterStr 1) false st
        ("0101".toList :: "Live horses, asses, mules and hinnies".toList :: rest) =
      extractLoop (chapterStr 1) false
        ⟨"0101".toList, "Live horses, asses, mules and hinnies".toList, [], [], st.seen⟩
        rest) ∧
    ((∀ l ∈ rest1, contextLine ("0101".toList) l = false) →
      ∃ recs seen2,
        extractLoop (chapterStr 1) false
            ⟨"0101".toList, "Live horses, asses, mules and hinnies".toList, [], [], st.seen⟩
            (rest1 ++ rest2) =
          recs ++ extractLoop (chapterStr 1) false
            ⟨"0101".toList, "Live horses, asses, mules and hinnies".toList, [], [], seen2⟩
            rest2 ∧
        ∀ r ∈ recs, r.heading = "0101".toList ∧
          r.heading_description = "Live horses, asses, mules and hinnies".toList ∧
          r.subheading = [] ∧ r.subheading_description = []) := by
  constructor
  · rfl
  · intro hctx
    obtain ⟨recs, seen2, heq, hfields⟩ := @extractLoop_no_context (chapterStr 1) rest2
      ⟨"0101".toList, "Live horses, asses, mules and hinnies".toList, [], [], st.seen⟩
      rest1 hctx
    refine ⟨recs, seen2, heq, fun r hr => ?_⟩
    obtain ⟨_, h2, h3, h4, h5⟩ := hfields r hr
    exact ⟨h2, h3, h4, h5⟩

/-- C6 witness: the context propagation applied to a single code line
following the heading and its description. -/
theorem claim_C6_witness :
    ∃ recs seen2,
      extractLoop (chapterStr 1) false
          ⟨"0101".toList, "Live horses, asses, mules and hinnies".toList, [], [],
            initState.seen⟩
          (["0101210000-00-00 Pure".toList] ++ []) =
        recs ++ extractLoop (chapterStr 1) false
          ⟨"0101".toList, "Live horses, asses, mules and hinnies".toList, [], [], seen2⟩
          [] ∧
      ∀ r ∈ recs, r.heading = "0101".toList ∧
        r.heading_description = "Live horses, asses, mules and hinnies".toList ∧
        r.subheading = [] ∧ r.subheading_description = [] :=
  (claim_C6 initState [] ["0101210000-00-00 Pure".toList] []).2 (by decide)

/-- C10: before any heading line has been seen the current heading is the
empty string, so the prefix test of the subheading classifier accepts any
trimmed 5-digit line (a 5-char line can never be a code match); the
extractor can therefore emit records with a nonempty subheading and an
empty heading field, as on the concrete input whose single record has
subheading 01012 and heading empty. -/
theorem claim_C10 (l : List Char) (h5 : l.length = 5) (hdig : l.all isPyDigit = true) :
    subheadingShape [] l = true ∧
    extract_hierarchy_from_text ("01012\nAsses\n0101301000-00-00 Foo".toList) 1 =
      [⟨"01".toList, [], [], "01012".toList, "Asses".toList,
        "0101301000-00-00".toList, "Foo".toList⟩] := by
  refine ⟨?_, by decide⟩
  obtain ⟨a, t, rfl⟩ : ∃ a t, l = a :: t := by
    cases l with
    | nil => exact absurd h5 (by decide)
    | cons a t => exact ⟨a, t, rfl⟩
  have hrm : reMatch (a :: t) = false := reMatch_false_of_short (by omega)
  rw [subheadingShape, isdigitStr]
  simp [h5, hdig, hrm]

/-- C10 witness: the subheading classifier under the empty heading accepts
the 5-digit line 01012. -/
theorem claim_C10_witness :
    subheadingShape [] ("01012".toList) = true ∧
    extract_hierarchy_from_text ("01012\nAsses\n0101301000-00-00 Foo".toList) 1 =
      [⟨"01".toList, [], [], "01012".toList, "Asses".toList,
        "0101301000-00-00".toList, "Foo".toList⟩] :=
  claim_C10 ("01012".toList) (by decide) (by decide)

/-- C7: a chapter whose fetch fails (HTTP error or request error) is
skipped without aborting the run: the chapter loop over any chapter
sequence behaves as if the failing chapter were absent, so all later
chapters are still processed, and when the failing chapter is one of the
chapters 01 to 99 of the run, no chapter-title row and no hierarchy
record carries its two-digit chapter string. -/
theorem claim_C7 (fetch : Nat → Except FetchErr (List Char)) (c : Nat) (e : FetchErr)
    (hf : fetch c = Except.error e) :
    (∀ cs1 cs2 : List Nat,
      chapterLoop fetch (cs1 ++ c :: cs2) = chapterLoop fetch (cs1 ++ cs2)) ∧
    (c ∈ allChapters →
      (∀ row ∈ chapterRows fetch, row.chapter ≠ chapterStr c) ∧
      (∀ r ∈ collectedRecords fetch, r.chapter ≠ chapterStr c)) := by
  refine ⟨chapterLoop_skip fetch c e hf, fun hc => ⟨?_, ?_⟩⟩
  · intro row hrow hceq
    obtain ⟨c', hc', ⟨t, ht⟩, hcs⟩ := chapterLoop_row_mem hrow
    by_cases hcc : c' = c
    · subst hcc
      rw [ht] at hf
      cases hf
    · refine chapterStr_inj_lt c' (allChapters_lt c' hc') c (allChapters_lt c hc) hcc ?_
      rw [← hcs, hceq]
  · intro r hr hceq
    obtain ⟨c', hc', ⟨t, ht⟩, hcs⟩ := chapterLoop_record_mem hr
    by_cases hcc : c' = c
    · subst hcc
      rw [ht] at hf
      cases hf
    · refine chapterStr_inj_lt c' (allChapters_lt c' hc') c (allChapters_lt c hc) hcc ?_
      rw [← hcs, hceq]

/-- C7 witness: with every fetch failing by HTTP error, chapter 5 is
skipped and the loop over chapters 1, 2, 5, 6 equals the loop over
chapters 1, 2, 6. -/
theorem claim_C7_witness :
    chapterLoop (fun _ => Except.error FetchErr.httpError) ([1, 2] ++ 5 :: [6]) =
      chapterLoop (fun _ => Except.error FetchErr.httpError) ([1, 2] ++ [6]) :=
  (claim_C7 (fun _ => Except.error FetchErr.httpError) 5 FetchErr.httpError rfl).1 [1, 2] [6]

/-- C8: when each per-chapter record list is internally deduplicated, the
chapters are pairwise distinct chapter numbers of the run range, and every
record of a chapter's list is stamped with that chapter's two-digit
string, the global dedup pass of main returns the concatenation of the
lists unchanged: the pass is redundant. -/
theorem claim_C8 (chunks : List (Nat × List Record))
    (hpw : chunks.Pairwise (fun p q => p.1 ≠ q.1))
    (hlt : ∀ p ∈ chunks, p.1 < 100)
    (hded : ∀ p ∈ chunks, p.2.Nodup)
    (hstamp : ∀ p ∈ chunks, ∀ r ∈ p.2, r.chapter = chapterStr p.1) :
    dedupeRecords (chunks.map Prod.snd).flatten = (chunks.map Prod.snd).flatten := by
  apply dedupeAux_eq_self
  · rw [List.nodup_flatten]
    constructor
    · intro l hl
      obtain ⟨p, hp, rfl⟩ := List.mem_map.mp hl
      exact hded p hp
    · rw [List.pairwise_map]
      refine List.Pairwise.imp_of_mem ?_ hpw
      intro p q hp hq hne r hrp hrq
      refine chapterStr_inj_lt p.1 (hlt p hp) q.1 (hlt q hq) hne ?_
      rw [← hstamp p hp r hrp, ← hstamp q hq r hrq]
  · intro r _
    exact List.not_mem_nil r

/-- C8 witness: two deduplicated single-record chapters with distinct
chapter stamps pass through the global dedup unchanged. -/
theorem claim_C8_witness :
    dedupeRecords
        ([(1, [⟨"01".toList, [], [], [], [], "0101210000-00-00".toList, "a".toList⟩]),
          (2, [⟨"02".toList, [], [], [], [], "0202110000-00-00".toList, "b".toList⟩])].map
          Prod.snd).flatten =
      ([(1, [⟨"01".toList, [], [], [], [], "0101210000-00-00".toList, "a".toList⟩]),
        (2, [⟨"02".toList, [], [], [], [], "0202110000-00-00".toList, "b".toList⟩])].map
        Prod.snd).flatten :=
  claim_C8
    [(1, [⟨"01".toList, [], [], [], [], "0101210000-00-00".toList, "a".toList⟩]),
     (2, [⟨"02".toList, [], [], [], [], "0202110000-00-00".toList, "b".toList⟩])]
    (by decide) (by decide) (by decide) (by decide)

/-- C9: extraction is deterministic: identical text and chapter arguments
give identical record lists and identical title strings. -/
theorem claim_C9 (t1 t2 : List Char) (c1 c2 : Nat) (h1 : t1 = t2) (h2 : c1 = c2) :
    extract_hierarchy_from_text t1 c1 = extract_hierarchy_from_text t2 c2 ∧
    extract_chapter_name t1 c1 = extract_chapter_name t2 c2 := by
  subst h1
  subst h2
  exact ⟨rfl, rfl⟩

/-- C9 witness: determinism at a concrete chapter text. -/
theorem claim_C9_witness :
    extract_hierarchy_from_text ("CHAPTER 01\n0101210000-00-00 X".toList) 1 =
      extract_hierarchy_from_text ("CHAPTER 01\n0101210000-00-00 X".toList) 1 ∧
    extract_chapter_name ("CHAPTER 01\n0101210000-00-00 X".toList) 1 =
      extract_chapter_name ("CHAPTER 01\n0101210000-00-00 X".toList) 1 :=
  claim_C9 _ _ _ _ rfl rfl

end GibTariff
